import Mathlib

/-!
Verification development for the brokaw NNTP client.

Bytes are modelled as natural numbers, byte buffers as lists of naturals
(`Vec<u8>` becomes `List Nat`), and text as lists of Unicode code points.
Pure accessors are translated directly from `src/raw/response.rs`; the
session state machine is translated from `src/client.rs`, with the
connection modelled as a script of server responses consumed in order.
Parts of the repository that live outside the provided sources (the
response parser in the connection layer, the response-code classifier,
the `Group`/`Capabilities` parsers and the error enum) are modelled from
the specification and are marked as such in their doc comments.
-/

namespace Brokaw

/-! ## Response codes and their classification -/

/-- Modelled from the spec: the closed set of known semantic outcome kinds
for the commands this client issues (spec section 3, "Response Code"). -/
inductive Kind where
  | capabilities
  | groupSelected
  | noSuchNewsgroup
  | authenticationAccepted
  | moreAuthenticationRequired
  | connectionClosing
deriving DecidableEq

/-- Modelled from the spec: a 3-digit code classified into a known outcome
kind, or kept as an opaque numeric code when unrecognized. -/
inductive ResponseCode where
  | known (k : Kind)
  | unknown (n : Nat)
deriving DecidableEq

/-- Modelled from the spec: the fixed classification table of the
Response Code Classifier, with the RFC 3977/4643 numeric codes
(101 capabilities follow, 211 group selected, 411 no such newsgroup,
281 authentication accepted, 381 more authentication required,
205 connection closing); every other code is left unclassified. -/
def ResponseCode.ofCode (n : Nat) : ResponseCode :=
  if n = 101 then ResponseCode.known Kind.capabilities
  else if n = 211 then ResponseCode.known Kind.groupSelected
  else if n = 411 then ResponseCode.known Kind.noSuchNewsgroup
  else if n = 281 then ResponseCode.known Kind.authenticationAccepted
  else if n = 381 then ResponseCode.known Kind.moreAuthenticationRequired
  else if n = 205 then ResponseCode.known Kind.connectionClosing
  else ResponseCode.unknown n

/-! ## UTF-8 decoding

Translated from the validation rules of Rust's `str::from_utf8`
(RFC 3629 well-formedness: continuation bytes in `80..=BF`, no overlong
forms, no surrogates, scalar values at most `10FFFF`), which
`RawResponse::first_line_as_utf8` and `DataBlocks::payload_as_utf8`
call. The decoders work on byte lists and produce code-point lists. -/

/-- True when a byte is a UTF-8 continuation byte (`80..=BF`). -/
def isCont (c : Nat) : Bool := 0x80 ≤ c && c ≤ 0xBF

/-- Decode one UTF-8 scalar value from the front of a byte list,
returning the code point and the remaining bytes, or `none` when the
input does not start with a well-formed sequence. -/
def decodeUtf8Char : List Nat → Option (Nat × List Nat)
  | [] => none
  | b :: rest =>
    if b < 0x80 then some (b, rest)
    else if b < 0xC2 then none
    else if b < 0xE0 then
      match rest with
      | c1 :: r1 => if isCont c1 then some ((b - 0xC0) * 0x40 + (c1 - 0x80), r1) else none
      | [] => none
    else if b ≤ 0xEF then
      match rest with
      | c1 :: c2 :: r2 =>
        if (if b = 0xE0 then 0xA0 else 0x80) ≤ c1 && c1 ≤ (if b = 0xED then 0x9F else 0xBF)
            && isCont c2 then
          some ((b - 0xE0) * 0x1000 + (c1 - 0x80) * 0x40 + (c2 - 0x80), r2)
        else none
      | _ => none
    else if b ≤ 0xF4 then
      match rest with
      | c1 :: c2 :: c3 :: r3 =>
        if (if b = 0xF0 then 0x90 else 0x80) ≤ c1 && c1 ≤ (if b = 0xF4 then 0x8F else 0xBF)
            && isCont c2 && isCont c3 then
          some ((b - 0xF0) * 0x40000 + (c1 - 0x80) * 0x1000 + (c2 - 0x80) * 0x40 + (c3 - 0x80), r3)
        else none
      | _ => none
    else none

/-- Fuelled strict decoding loop; `decodeUtf8` supplies the list length
as fuel, which suffices because each step consumes at least one byte. -/
def decodeUtf8Go : Nat → List Nat → Option (List Nat)
  | _, [] => some []
  | 0, _ :: _ => none
  | fuel + 1, b :: bs =>
    match decodeUtf8Char (b :: bs) with
    | none => none
    | some (cp, rest) => (decodeUtf8Go fuel rest).map (fun u => cp :: u)

/-- Strict UTF-8 decoding of a whole byte list, as done by Rust's
`str::from_utf8`: succeeds exactly on well-formed input. -/
def decodeUtf8 (l : List Nat) : Option (List Nat) :=
  decodeUtf8Go l.length l

/-- Length of the maximal well-formed sequence at the start of invalid
input, as in Rust's `Utf8Error::error_len`; used by the lossy decoder.
Always at least 1, so the lossy decoder makes progress. -/
def utf8ErrorLen : List Nat → Nat
  | [] => 1
  | b :: rest =>
    if b < 0xE0 then 1
    else if b ≤ 0xEF then
      match rest with
      | c1 :: _ =>
        if (if b = 0xE0 then 0xA0 else 0x80) ≤ c1 && c1 ≤ (if b = 0xED then 0x9F else 0xBF)
        then 2 else 1
      | [] => 1
    else if b ≤ 0xF4 then
      match rest with
      | c1 :: c2 :: _ =>
        if (if b = 0xF0 then 0x90 else 0x80) ≤ c1 && c1 ≤ (if b = 0xF4 then 0x8F else 0xBF)
        then (if isCont c2 then 3 else 2) else 1
      | [c1] =>
        if (if b = 0xF0 then 0x90 else 0x80) ≤ c1 && c1 ≤ (if b = 0xF4 then 0x8F else 0xBF)
        then 2 else 1
      | [] => 1
    else 1

/-- Fuelled lossy decoding loop, as in Rust's `String::from_utf8_lossy`:
well-formed sequences decode as usual, each maximal invalid sequence is
replaced by U+FFFD. -/
def lossyGo : Nat → List Nat → List Nat
  | _, [] => []
  | 0, _ :: _ => []
  | fuel + 1, b :: bs =>
    match decodeUtf8Char (b :: bs) with
    | some (cp, rest) => cp :: lossyGo fuel rest
    | none => 0xFFFD :: lossyGo fuel ((b :: bs).drop (utf8ErrorLen (b :: bs)))

/-- Lossy UTF-8 decoding of a whole byte list (`String::from_utf8_lossy`). -/
def lossyDecode (l : List Nat) : List Nat :=
  lossyGo l.length l

/-- Unicode white-space test on a code point, as in Rust's
`char::is_whitespace` (the Unicode White_Space property). -/
def isWhitespaceCp (c : Nat) : Bool :=
  (9 ≤ c && c ≤ 13) || c = 32 || c = 0x85 || c = 0xA0 || c = 0x1680 ||
  (0x2000 ≤ c && c ≤ 0x200A) || c = 0x2028 || c = 0x2029 || c = 0x202F ||
  c = 0x205F || c = 0x3000

/-- Remove leading and trailing white space from a code-point list, as in
Rust's `str::trim`. -/
def trimCp (l : List Nat) : List Nat :=
  ((l.dropWhile isWhitespaceCp).reverse.dropWhile isWhitespaceCp).reverse

/-- Code points of a Lean string literal; used for the fixed error
messages that `client.rs` builds with `String::to_string`. -/
def strCp (s : String) : List Nat :=
  s.toList.map Char.toNat

/-! ## Multi-line data blocks (`src/raw/response.rs`) -/

/-- The multi-line data blocks portion of an NNTP response: a contiguous
payload already stripped of protocol-level line escaping, and the
recorded `(start, end)` line boundary pairs into it
(`DataBlocks` in `src/raw/response.rs`). -/
structure DataBlocks where
  payload : List Nat
  line_boundaries : List (Nat × Nat)
deriving DecidableEq

/-- `DataBlocks::payload`. -/
def DataBlocks.payloadBytes (db : DataBlocks) : List Nat :=
  db.payload

/-- `DataBlocks::payload_as_utf8`: simply strict UTF-8 decoding of the
payload, with no other processing. -/
def DataBlocks.payload_as_utf8 (db : DataBlocks) : Option (List Nat) :=
  decodeUtf8 db.payload

/-- The list of line slices produced by iterating `DataBlocks::lines`:
each boundary pair `(start, end)` yields `payload[start..end]`
(`Lines::next` in `src/raw/response.rs`). -/
def DataBlocks.linesList (db : DataBlocks) : List (List Nat) :=
  db.line_boundaries.map (fun q => (db.payload.drop q.1).take (q.2 - q.1))

/-- `DataBlocks::lines_len`: the number of recorded line boundaries. -/
def DataBlocks.lines_len (db : DataBlocks) : Nat :=
  db.line_boundaries.length

/-- `DataBlocks::payload_len`. -/
def DataBlocks.payload_len (db : DataBlocks) : Nat :=
  db.payload.length

/-- `DataBlocks::is_empty`: true when there are no line boundaries. -/
def DataBlocks.is_empty (db : DataBlocks) : Bool :=
  db.line_boundaries.isEmpty

/-! ## The multi-line data-block parser

Modelled from the spec: the response parser that assembles a
`DataBlocks` value lives in the connection layer, which is not among the
provided sources; it is modelled here from spec sections 4.1 and 4.3.
`readLine` is the transport's read-until-CRLF primitive; the parser
reads lines until the lone-dot terminator, undoes dot-escaping, appends
each stored line to the payload and records a boundary pair spanning
exactly the stored content, excluding the CRLF terminator. -/

/-- Modelled from the spec: `Transport::read_line` (spec section 4.1)
splits the stream at the first CRLF, returning the line content without
the terminator and the rest of the stream; `none` when no complete
CRLF-terminated line is available. -/
def readLine : List Nat → Option (List Nat × List Nat)
  | [] => none
  | [_] => none
  | b :: c :: rest =>
    if b = 13 ∧ c = 10 then some ([], rest)
    else (readLine (c :: rest)).map (fun p => (b :: p.1, p.2))

/-- Modelled from the spec: undo sender-side dot-stuffing (spec section
4.3 step 3): a line beginning with two dots loses exactly the first. -/
def unescape (l : List Nat) : List Nat :=
  if l.take 2 = [46, 46] then l.drop 1 else l

/-- Modelled from the spec: the data-block assembly loop of the response
parser (spec section 4.3 step 3). Reads lines until the lone-dot
terminator line, which is consumed but not stored; every other line is
unescaped, appended to the payload, and a boundary pair spanning exactly
the stored content is recorded. Fuel bounds the recursion; the list
length is always enough since each line consumes at least two bytes. -/
def parseDataBlocksAux : Nat → List Nat → List Nat → List (Nat × Nat) → Option DataBlocks
  | 0, _, _, _ => none
  | fuel + 1, s, payload, bounds =>
    match readLine s with
    | none => none
    | some (l, rest) =>
      if l = [46] then some ⟨payload, bounds⟩
      else
        parseDataBlocksAux fuel rest (payload ++ unescape l)
          (bounds ++ [(payload.length, payload.length + (unescape l).length)])

/-- Modelled from the spec: parse a complete multi-line data block from
a byte stream (spec section 4.3). -/
def parseDataBlocks (s : List Nat) : Option DataBlocks :=
  parseDataBlocksAux s.length s [] []

/-- Modelled from the spec: the raw content lines of a multi-line data
block, i.e. the lines sent before the terminator line, still escaped,
in order (the reference notion of "content lines sent before the
terminator" used to state the boundary-count invariant). -/
def collectContentAux : Nat → List Nat → Option (List (List Nat))
  | 0, _ => none
  | fuel + 1, s =>
    match readLine s with
    | none => none
    | some (l, rest) =>
      if l = [46] then some []
      else (collectContentAux fuel rest).map (fun ls => l :: ls)

/-- The content lines of a byte stream, with the same fuel discipline as
`parseDataBlocks`. -/
def collectContent (s : List Nat) : Option (List (List Nat)) :=
  collectContentAux s.length s

/-- The boundary pairs recorded for a list of stored lines appended
contiguously starting at a given offset. -/
def boundaryList (start : Nat) : List (List Nat) → List (Nat × Nat)
  | [] => []
  | u :: us => (start, start + u.length) :: boundaryList (start + u.length) us

/-- Strict lexicographic order on boundary pairs; the reading of
"strictly increasing" used for the boundary invariants. -/
def pairLt (a b : Nat × Nat) : Prop :=
  a.1 < b.1 ∨ (a.1 = b.1 ∧ a.2 < b.2)

instance (a b : Nat × Nat) : Decidable (pairLt a b) := by
  unfold pairLt; infer_instance

/-! ## Raw responses (`src/raw/response.rs`) -/

/-- `RawResponse`: status code, raw first line bytes (no guaranteed text
encoding) and the optional multi-line data blocks. -/
structure RawResponse where
  code : ResponseCode
  first_line : List Nat
  data_blocks : Option DataBlocks
deriving DecidableEq

/-- `RawResponse::code`. -/
def RawResponse.codeOf (resp : RawResponse) : ResponseCode :=
  resp.code

/-- `RawResponse::has_data_blocks`. -/
def RawResponse.has_data_blocks (resp : RawResponse) : Bool :=
  resp.data_blocks.isSome

/-- `RawResponse::first_line_without_code`: the first line with the
3-digit code and separator byte removed (`&self.first_line[4..]`). -/
def RawResponse.first_line_without_code (resp : RawResponse) : List Nat :=
  resp.first_line.drop 4

/-- `RawResponse::first_line_as_utf8`: strict UTF-8 decoding of the
first line, then `str::trim` on the successfully decoded text
(`from_utf8(&self.first_line).map(|s| s.trim())`). -/
def RawResponse.first_line_as_utf8 (resp : RawResponse) : Option (List Nat) :=
  (decodeUtf8 resp.first_line).map trimCp

/-- `RawResponse::first_line_to_utf8_lossy`: lossy UTF-8 decoding of the
first line, with no trimming. -/
def RawResponse.first_line_to_utf8_lossy (resp : RawResponse) : List Nat :=
  lossyDecode resp.first_line

/-! ## Client-side types

`Group`, `Capabilities` and the error enum live in modules that are not
among the provided sources (`crate::types`, `crate::error`); they are
modelled from spec sections 3 and 7. -/

/-- Modelled from the spec: a selected newsgroup with its reported
article number count and low/high water marks, parsed from the first
line of a successful GROUP response (spec section 3, "Group"). -/
structure Group where
  name : List Nat
  number : Nat
  low : Nat
  high : Nat
deriving DecidableEq

/-- Modelled from the spec: one capability label with its optional
parameter tokens (spec section 3, "Capabilities"). -/
structure Capability where
  label : List Nat
  params : List (List Nat)
deriving DecidableEq

/-- Modelled from the spec: the set of capability labels advertised by
the server, replaced wholesale on each successful negotiation. -/
structure Capabilities where
  caps : List Capability
deriving DecidableEq

/-- Modelled from the spec: the error taxonomy of spec section 7
restricted to the variants the session state machine produces:
a transport error, the distinguished bad-response/not-found error
built by `Error::bad_response`, and the generic
`Failure { code, msg, resp }`. -/
inductive Error where
  | transport
  | badResponse (resp : RawResponse)
  | failure (code : ResponseCode) (msg : Option (List Nat)) (resp : RawResponse)
deriving DecidableEq

/-- Split a byte list on the space byte, as Rust's `split(' ')`. -/
def splitOnSpace : List Nat → List (List Nat)
  | [] => [[]]
  | 32 :: rest => [] :: splitOnSpace rest
  | b :: rest =>
    match splitOnSpace rest with
    | [] => [[b]]
    | t :: ts => (b :: t) :: ts

/-- Parse a non-empty all-ASCII-digit byte list as a natural number. -/
def parseDigits (l : List Nat) : Option Nat :=
  if l ≠ [] ∧ l.all (fun b => 48 ≤ b && b ≤ 57) then
    some (l.foldl (fun a b => a * 10 + (b - 48)) 0)
  else none

/-- Drop one trailing CRLF pair from a byte list when present. -/
def stripCRLF (l : List Nat) : List Nat :=
  if l.reverse.take 2 = [10, 13] then l.dropLast.dropLast else l

/-- Modelled from the spec: `Group::try_from(&RawResponse)`, which is
not among the provided sources. Per spec section 4.5, the first line of
a "group selected" response is parsed into the group counts and name:
after the code and separator the line reads
`number low high name` (RFC 3977 GROUP). Malformed lines produce the
bad-response error. -/
def Group.tryFrom (resp : RawResponse) : Except Error Group :=
  match splitOnSpace (stripCRLF resp.first_line_without_code) with
  | num :: low :: high :: nm :: _ =>
    match parseDigits num, parseDigits low, parseDigits high with
    | some a, some b, some c => Except.ok ⟨nm, a, b, c⟩
    | _, _, _ => Except.error (Error.badResponse resp)
  | _ => Except.error (Error.badResponse resp)

/-- Modelled from the spec: one capability line split into its label and
parameter tokens (spec section 4.5, CAPABILITIES row). -/
def parseCapLine (l : List Nat) : Capability :=
  match splitOnSpace l with
  | [] => ⟨[], []⟩
  | t :: ts => ⟨t, ts⟩

/-- Modelled from the spec: `Capabilities::try_from(&RawResponse)`,
which is not among the provided sources. Each data-block line becomes
one capability; a response without data blocks is a bad response. -/
def Capabilities.tryFrom (resp : RawResponse) : Except Error Capabilities :=
  match resp.data_blocks with
  | none => Except.error (Error.badResponse resp)
  | some db => Except.ok ⟨(DataBlocks.linesList db).map parseCapLine⟩

/-! ## The session state machine (`src/client.rs`)

The observable state of an `NntpClient` is its capability set and its
optional current group. Each exchange method is translated with the
server's response to the single command it sends as an explicit
argument; the connect sequence is modelled with the connection as a
script of responses consumed in order, recording the events (commands
sent, warning emitted) as a trace. -/

/-- The observable session state of an `NntpClient`: the current
capability set and the optional current group. -/
structure ClientState where
  capabilities : Capabilities
  group : Option Group
deriving DecidableEq

/-- The command variants sent by the session state machine
(`crate::types::command`). -/
inductive Command where
  | group (name : List Nat)
  | capabilities
  | authinfoUser (u : List Nat)
  | authinfoPass (p : List Nat)
  | quit
deriving DecidableEq

/-- An observable event of the connect sequence: a command sent on the
wire, or the warning-level signal emitted when credentials are about to
be sent without TLS. -/
inductive Event where
  | warnedPlaintext
  | sent (c : Command)
deriving DecidableEq

/-- `NntpClient::set_group`, translated from `src/client.rs` lines
40-56 with the server's response to the GROUP command as an explicit
argument. On "group selected" the parsed group replaces the current
group; "no such newsgroup" yields the distinguished bad-response error;
any other code yields the generic failure carrying the lossily decoded
first line. The state is returned unchanged on every error path. -/
def set_group (st : ClientState) (_name : List Nat) (resp : RawResponse) :
    Except Error Group × ClientState :=
  if resp.code = ResponseCode.known Kind.groupSelected then
    match Group.tryFrom resp with
    | Except.ok g => (Except.ok g, ⟨st.capabilities, some g⟩)
    | Except.error e => (Except.error e, st)
  else if resp.code = ResponseCode.known Kind.noSuchNewsgroup then
    (Except.error (Error.badResponse resp), st)
  else
    (Except.error (Error.failure resp.code (some resp.first_line_to_utf8_lossy) resp), st)

/-- `NntpClient::update_capabilities`, translated from `src/client.rs`
lines 62-72: a response whose code is not "capabilities follow" is a bad
response; otherwise the parsed capabilities replace the stored set
wholesale. -/
def update_capabilities (st : ClientState) (resp : RawResponse) :
    Except Error Capabilities × ClientState :=
  if resp.code ≠ ResponseCode.known Kind.capabilities then
    (Except.error (Error.badResponse resp), st)
  else
    match Capabilities.tryFrom resp with
    | Except.ok caps => (Except.ok caps, ⟨caps, st.group⟩)
    | Except.error e => (Except.error e, st)

/-- `NntpClient::close`, translated from `src/client.rs` lines 94-108:
a QUIT response other than "connection closing" is a failure and leaves
the state untouched; on success the current group is cleared. -/
def close (st : ClientState) (resp : RawResponse) :
    Except Error Unit × ClientState :=
  if resp.code ≠ ResponseCode.known Kind.connectionClosing then
    (Except.error (Error.failure resp.code
      (some (strCp "Failed to close connection")) resp), st)
  else
    (Except.ok (), ⟨st.capabilities, none⟩)

/-- `NntpConnection::command` on a scripted connection: sending a
command records a sent event and consumes the next scripted response;
an exhausted script is a transport error. -/
def commandStep (script : List RawResponse) (c : Command) :
    Except Error RawResponse × List RawResponse × List Event :=
  match script with
  | [] => (Except.error Error.transport, [], [Event.sent c])
  | r :: rest => (Except.ok r, rest, [Event.sent c])

/-- `authenticate`, translated from `src/client.rs` lines 211-240:
send AUTHINFO USER; unless the response code is exactly
`ResponseCode::from(381)` ("more authentication required"), fail with a
Failure and stop. Otherwise send AUTHINFO PASS; unless its code is
"authentication accepted", fail with a Failure. -/
def authenticate (username password : List Nat) (script : List RawResponse) :
    Except Error Unit × List RawResponse × List Event :=
  match commandStep script (Command.authinfoUser username) with
  | (Except.error e, s1, evs1) => (Except.error e, s1, evs1)
  | (Except.ok userResp, s1, evs1) =>
    if userResp.code ≠ ResponseCode.ofCode 381 then
      (Except.error (Error.failure userResp.code
        (some (strCp "AUTHINFO USER failed")) userResp), s1, evs1)
    else
      match commandStep s1 (Command.authinfoPass password) with
      | (Except.error e, s2, evs2) => (Except.error e, s2, evs1 ++ evs2)
      | (Except.ok passResp, s2, evs2) =>
        if passResp.code ≠ ResponseCode.known Kind.authenticationAccepted then
          (Except.error (Error.failure passResp.code
            (some (strCp "AUTHINFO PASS failed")) passResp), s2, evs1 ++ evs2)
        else
          (Except.ok (), s2, evs1 ++ evs2)

/-- `get_capabilities`, translated from `src/client.rs` lines 242-250. -/
def get_capabilities (script : List RawResponse) :
    Except Error Capabilities × List RawResponse × List Event :=
  match commandStep script Command.capabilities with
  | (Except.error e, s1, evs1) => (Except.error e, s1, evs1)
  | (Except.ok resp, s1, evs1) =>
    if resp.code ≠ ResponseCode.known Kind.capabilities then
      (Except.error (Error.badResponse resp), s1, evs1)
    else
      match Capabilities.tryFrom resp with
      | Except.ok caps => (Except.ok caps, s1, evs1)
      | Except.error e => (Except.error e, s1, evs1)

/-- `select_group`, translated from `src/client.rs` lines 252-264. -/
def select_group (name : List Nat) (script : List RawResponse) :
    Except Error Group × List RawResponse × List Event :=
  match commandStep script (Command.group name) with
  | (Except.error e, s1, evs1) => (Except.error e, s1, evs1)
  | (Except.ok resp, s1, evs1) =>
    if resp.code = ResponseCode.known Kind.groupSelected then
      match Group.tryFrom resp with
      | Except.ok g => (Except.ok g, s1, evs1)
      | Except.error e => (Except.error e, s1, evs1)
    else if resp.code = ResponseCode.known Kind.noSuchNewsgroup then
      (Except.error (Error.badResponse resp), s1, evs1)
    else
      (Except.error (Error.failure resp.code
        (some resp.first_line_to_utf8_lossy) resp), s1, evs1)

/-- `ClientConfig`, translated from `src/client.rs` lines 113-119: the
TLS configuration is abstracted to its presence, and the read timeout
(irrelevant to the exchange order) is omitted. -/
structure ClientConfig where
  tls : Bool
  authinfo : Option (List Nat × List Nat)
  groupName : Option (List Nat)
deriving DecidableEq

/-- The warning events emitted before authentication: exactly one
plaintext-credentials warning when credentials are configured without
TLS (`src/client.rs` lines 171-174). -/
def warnEvs (cfg : ClientConfig) : List Event :=
  match cfg.authinfo with
  | some _ => if cfg.tls then [] else [Event.warnedPlaintext]
  | none => []

/-- The authentication phase of `ClientConfig::connect`: run
`authenticate` exactly when credentials are configured. -/
def authPhase (cfg : ClientConfig) (script : List RawResponse) :
    Except Error Unit × List RawResponse × List Event :=
  match cfg.authinfo with
  | none => (Except.ok (), script, [])
  | some up => authenticate up.1 up.2 script

/-- The initial-group phase of `ClientConfig::connect`: run
`select_group` exactly when an initial group is configured. -/
def groupPhase (cfg : ClientConfig) (script : List RawResponse) :
    Except Error (Option Group) × List RawResponse × List Event :=
  match cfg.groupName with
  | none => (Except.ok none, script, [])
  | some name =>
    match select_group name script with
    | (Except.ok g, s1, evs) => (Except.ok (some g), s1, evs)
    | (Except.error e, s1, evs) => (Except.error e, s1, evs)

/-- `ClientConfig::connect`, translated from `src/client.rs` lines
161-196, starting after the transport handshake (the script holds the
responses to the commands sent after the greeting): warn when
credentials are configured without TLS, authenticate when credentials
are configured (a failure aborts), then retrieve capabilities, then
select the initial group when configured, and assemble the client
state. The event trace records the warning and every command sent, in
order. -/
def connectModel (cfg : ClientConfig) (script : List RawResponse) :
    Except Error ClientState × List Event :=
  match authPhase cfg script with
  | (Except.error e, _, authEvs) => (Except.error e, warnEvs cfg ++ authEvs)
  | (Except.ok _, s1, authEvs) =>
    match get_capabilities s1 with
    | (Except.error e, _, capEvs) =>
      (Except.error e, warnEvs cfg ++ authEvs ++ capEvs)
    | (Except.ok caps, s2, capEvs) =>
      match groupPhase cfg s2 with
      | (Except.error e, _, grpEvs) =>
        (Except.error e, warnEvs cfg ++ authEvs ++ capEvs ++ grpEvs)
      | (Except.ok g, _, grpEvs) =>
        (Except.ok ⟨caps, g⟩, warnEvs cfg ++ authEvs ++ capEvs ++ grpEvs)

/-- True on events that belong to the authentication exchange. -/
def isAuthEvent : Event → Bool
  | Event.sent (Command.authinfoUser _) => true
  | Event.sent (Command.authinfoPass _) => true
  | _ => false

/-- True on events that belong to the capability negotiation. -/
def isCapEvent : Event → Bool
  | Event.sent Command.capabilities => true
  | _ => false

/-- True on events that belong to the initial group selection. -/
def isGroupEvent : Event → Bool
  | Event.sent (Command.group _) => true
  | _ => false


/-! ## Concrete demonstration data

Fixed responses, configurations and scripts used to instantiate the
theorems on concrete inputs. -/

/-- A 381 "more authentication required" response. -/
def respAuthMore : RawResponse :=
  ⟨ResponseCode.known Kind.moreAuthenticationRequired, [51, 56, 49, 32], none⟩

/-- A 281 "authentication accepted" response. -/
def respAuthOk : RawResponse :=
  ⟨ResponseCode.known Kind.authenticationAccepted, [50, 56, 49, 32], none⟩

/-- A 101 "capabilities follow" response whose data block holds the
single line "VERSION 2". -/
def respCapsDemo : RawResponse :=
  ⟨ResponseCode.known Kind.capabilities, [49, 48, 49, 32],
   some ⟨[86, 69, 82, 83, 73, 79, 78, 32, 50], [(0, 9)]⟩⟩

/-- A 211 "group selected" response reading "211 3 1 4 alt.test". -/
def respGroupDemo : RawResponse :=
  ⟨ResponseCode.known Kind.groupSelected,
   [50, 49, 49, 32, 51, 32, 49, 32, 52, 32,
    97, 108, 116, 46, 116, 101, 115, 116, 13, 10], none⟩

/-- An unclassified 481 response. -/
def respBadDemo : RawResponse :=
  ⟨ResponseCode.unknown 481, [52, 56, 49, 32], none⟩

/-- A configuration with credentials, no TLS, and an initial group. -/
def cfgDemo : ClientConfig :=
  ⟨false, some ([117], [112]), some [97, 108, 116, 46, 116, 101, 115, 116]⟩

/-- A configuration with neither credentials nor an initial group. -/
def cfgNoAuth : ClientConfig :=
  ⟨true, none, none⟩

/-- The scripted responses of a fully successful connect sequence. -/
def scriptDemo : List RawResponse :=
  [respAuthMore, respAuthOk, respCapsDemo, respGroupDemo]

/-! ## Helper lemmas about the data-block parser -/

/-- A successfully read line, followed by its CRLF terminator and the
remaining stream, reassembles the input stream. -/
theorem readLine_append : ∀ (s l r : List Nat),
    readLine s = some (l, r) → s = l ++ 13 :: 10 :: r := by
  intro s
  induction s with
  | nil => intro l r h; simp [readLine] at h
  | cons b s' ih =>
    intro l r h
    cases s' with
    | nil => simp [readLine] at h
    | cons c rest =>
      by_cases hbc : b = 13 ∧ c = 10
      · rw [readLine, if_pos hbc] at h
        simp at h
        simp [hbc.1, hbc.2, ← h.1, ← h.2]
      · rw [readLine, if_neg hbc] at h
        cases hr : readLine (c :: rest) with
        | none => rw [hr] at h; simp at h
        | some p =>
          rw [hr] at h
          simp at h
          have hrec := ih p.1 p.2 (by rw [hr])
          rw [← h.1, ← h.2, List.cons_append]
          exact congrArg (List.cons b) hrec

/-- A line returned by `readLine` never ends in CRLF. -/
theorem readLine_no_crlf : ∀ (s l r : List Nat),
    readLine s = some (l, r) → ¬ ([13, 10] <:+ l) := by
  intro s
  induction s with
  | nil => intro l r h; simp [readLine] at h
  | cons b s' ih =>
    intro l r h
    cases s' with
    | nil => simp [readLine] at h
    | cons c rest =>
      by_cases hbc : b = 13 ∧ c = 10
      · rw [readLine, if_pos hbc] at h
        simp at h
        rw [h.1]
        intro hsuf
        have := hsuf.length_le
        simp at this
      · rw [readLine, if_neg hbc] at h
        cases hr : readLine (c :: rest) with
        | none => rw [hr] at h; simp at h
        | some p =>
          rw [hr] at h
          simp at h
          rw [← h.1]
          intro hsuf
          rcases List.suffix_cons_iff.mp hsuf with heq | htail
          · have hb : b = 13 := by
              have := congrArg List.headI heq.symm
              simpa using this
            have hp1 : p.1 = [10] := by
              have := congrArg List.tail heq.symm
              simpa using this
            have hc : c = 10 := by
              have happ := readLine_append _ _ _ (show readLine (c :: rest) = some (p.1, p.2) by rw [hr])
              rw [hp1] at happ
              simpa using congrArg List.headI happ
            exact hbc ⟨hb, hc⟩
          · exact ih p.1 p.2 (by rw [hr]) htail

/-- Unescaping only removes a leading byte, so the result is a suffix of
the original line. -/
theorem unescape_suffix (l : List Nat) : unescape l <:+ l := by
  unfold unescape
  by_cases h : l.take 2 = [46, 46]
  · simp [h]
    exact List.tail_suffix l
  · simp [h]

/-- Every content line collected from a stream is CRLF-free at its end. -/
theorem collect_no_crlf : ∀ (fuel : Nat) (s : List Nat) (ls : List (List Nat)),
    collectContentAux fuel s = some ls → ∀ l ∈ ls, ¬ ([13, 10] <:+ l) := by
  intro fuel
  induction fuel with
  | zero => intro s ls h; simp [collectContentAux] at h
  | succ n ih =>
    intro s ls h
    rw [collectContentAux] at h
    cases hr : readLine s with
    | none => rw [hr] at h; simp at h
    | some p =>
      rw [hr] at h
      obtain ⟨l1, rest⟩ := p
      by_cases hterm : l1 = [46]
      · simp [hterm] at h
        subst h
        simp
      · simp [hterm] at h
        obtain ⟨ls', hc, hcons⟩ := h
        intro x hx
        rw [← hcons] at hx
        rcases List.mem_cons.mp hx with hxl | hxl
        · rw [hxl]
          exact readLine_no_crlf s l1 rest hr
        · exact ih rest ls' hc x hxl

/-- The number of recorded boundary pairs equals the number of stored
lines. -/
theorem boundaryList_length : ∀ (n : Nat) (ls : List (List Nat)),
    (boundaryList n ls).length = ls.length := by
  intro n ls
  induction ls generalizing n with
  | nil => simp [boundaryList]
  | cons u us ih => simp [boundaryList, ih]

/-- Every recorded boundary pair starts no earlier than the base offset,
is ordered, and ends within the appended content. -/
theorem boundaryList_mem_bounds : ∀ (n : Nat) (ls : List (List Nat)),
    ∀ q ∈ boundaryList n ls, n ≤ q.1 ∧ q.1 ≤ q.2 ∧ q.2 ≤ n + ls.flatten.length := by
  intro n ls
  induction ls generalizing n with
  | nil => simp [boundaryList]
  | cons u us ih =>
    intro q hq
    rw [boundaryList] at hq
    rcases List.mem_cons.mp hq with hh | ht
    · rw [hh]
      refine ⟨Nat.le_refl n, Nat.le_add_right _ _, ?_⟩
      simp [Nat.add_assoc]
    · have := ih (n + u.length) q ht
      refine ⟨Nat.le_trans (Nat.le_add_right _ _) this.1, this.2.1, ?_⟩
      calc q.2 ≤ n + u.length + us.flatten.length := this.2.2
        _ = n + (u :: us).flatten.length := by simp [Nat.add_assoc]

/-- Boundary pairs are non-overlapping: each pair ends at or before any
later pair starts. -/
theorem boundaryList_pairwise : ∀ (n : Nat) (ls : List (List Nat)),
    List.Pairwise (fun a b => a.2 ≤ b.1) (boundaryList n ls) := by
  intro n ls
  induction ls generalizing n with
  | nil => simp [boundaryList]
  | cons u us ih =>
    rw [boundaryList]
    refine List.Pairwise.cons ?_ (ih (n + u.length))
    intro q hq
    exact (boundaryList_mem_bounds (n + u.length) us q hq).1

/-- When every stored line is non-empty, the boundary pairs are strictly
increasing (in the lexicographic order on pairs). -/
theorem boundaryList_pairwise_lt : ∀ (n : Nat) (ls : List (List Nat)),
    (∀ u ∈ ls, u ≠ []) →
    List.Pairwise pairLt (boundaryList n ls) := by
  intro n ls
  induction ls generalizing n with
  | nil => simp [boundaryList]
  | cons u us ih =>
    intro hne
    rw [boundaryList]
    refine List.Pairwise.cons ?_ (ih (n + u.length) (fun v hv => hne v (List.mem_cons_of_mem u hv)))
    intro q hq
    have hq1 := (boundaryList_mem_bounds (n + u.length) us q hq).1
    have hupos : 0 < u.length :=
      List.length_pos.mpr (hne u (List.mem_cons_self u us))
    exact Or.inl (Nat.lt_of_lt_of_le (Nat.lt_add_of_pos_right hupos) hq1)

/-- Slicing the assembled payload at each recorded boundary pair yields
back exactly the stored lines, in order. -/
theorem boundaryList_slices : ∀ (ls : List (List Nat)) (pre : List Nat),
    (boundaryList pre.length ls).map
      (fun q => ((pre ++ ls.flatten).drop q.1).take (q.2 - q.1)) = ls := by
  intro ls
  induction ls with
  | nil => intro pre; simp [boundaryList]
  | cons u us ih =>
    intro pre
    rw [boundaryList, List.map_cons]
    have hhead : ((pre ++ (u :: us).flatten).drop pre.length).take
        (pre.length + u.length - pre.length) = u := by
      rw [Nat.add_sub_cancel_left, List.flatten_cons, List.drop_left pre, List.take_left u]
    have htail := ih (pre ++ u)
    rw [List.length_append] at htail
    have hflat : (pre ++ u) ++ us.flatten = pre ++ (u :: us).flatten := by
      simp [List.append_assoc]
    rw [hflat] at htail
    rw [hhead, htail]

/-- Characterization of the data-block assembly loop: a successful parse
collects exactly the content lines before the terminator, appends their
unescaped forms to the payload, and records the contiguous boundary
pairs for them. -/
theorem parseAux_spec : ∀ (fuel : Nat) (s payload : List Nat)
    (bounds : List (Nat × Nat)) (db : DataBlocks),
    parseDataBlocksAux fuel s payload bounds = some db →
    ∃ ls, collectContentAux fuel s = some ls ∧
      db.payload = payload ++ (ls.map unescape).flatten ∧
      db.line_boundaries = bounds ++ boundaryList payload.length (ls.map unescape) := by
  intro fuel
  induction fuel with
  | zero => intro s p b db h; simp [parseDataBlocksAux] at h
  | succ n ih =>
    intro s p b db h
    rw [parseDataBlocksAux] at h
    cases hr : readLine s with
    | none => rw [hr] at h; simp at h
    | some pr =>
      rw [hr] at h
      obtain ⟨l1, rest⟩ := pr
      by_cases hterm : l1 = [46]
      · simp [hterm] at h
        refine ⟨[], ?_, ?_, ?_⟩
        · rw [collectContentAux, hr]
          simp [hterm]
        · simp [← h]
        · simp [← h, boundaryList]
      · simp [hterm] at h
        obtain ⟨ls', hc, hp, hb⟩ := ih rest (p ++ unescape l1)
          (b ++ [(p.length, p.length + (unescape l1).length)]) db h
        refine ⟨l1 :: ls', ?_, ?_, ?_⟩
        · rw [collectContentAux, hr]
          simp [hterm, hc]
        · rw [hp]
          simp [List.append_assoc]
        · rw [hb, List.map_cons, boundaryList]
          simp [List.length_append, List.append_assoc]

/-! ## Claims about the data-block line boundaries -/

/-- C1: For every content line stored in a multi-line data block, the
recorded boundary pair spans exactly the stored line content — slicing
the payload at the recorded boundaries returns precisely the unescaped
content lines, in order — and every slice yielded by iterating
`DataBlocks::lines` ends without a trailing CRLF. -/
theorem datablock_lines_exclude_crlf (s : List Nat) (db : DataBlocks)
    (ls : List (List Nat))
    (hp : parseDataBlocks s = some db) (hc : collectContent s = some ls) :
    DataBlocks.linesList db = ls.map unescape ∧
    ∀ l ∈ DataBlocks.linesList db, ¬ ([13, 10] <:+ l) := by
  rw [parseDataBlocks] at hp
  rw [collectContent] at hc
  obtain ⟨ls', hc', hpay, hbound⟩ := parseAux_spec s.length s [] [] db hp
  rw [hc] at hc'
  have hls : ls' = ls := Option.some.inj hc'.symm
  subst hls
  have hslice := boundaryList_slices (ls'.map unescape) []
  simp only [List.length_nil, List.nil_append] at hslice
  simp only [List.nil_append] at hpay
  simp only [List.nil_append, List.length_nil] at hbound
  have hmain : DataBlocks.linesList db = ls'.map unescape := by
    rw [DataBlocks.linesList, hbound, hpay]
    exact hslice
  refine ⟨hmain, ?_⟩
  intro l hl
  rw [hmain] at hl
  obtain ⟨l0, hl0, rfl⟩ := List.mem_map.mp hl
  have h1 := collect_no_crlf s.length s ls' hc l0 hl0
  intro hsuf
  exact h1 (hsuf.trans (unescape_suffix l0))

/-- Witness for C1 at the concrete stream "abc\r\n..x\r\n.\r\n": the
slices are exactly the unescaped stored lines and none ends in CRLF. -/
theorem datablock_lines_exclude_crlf_witness :
    DataBlocks.linesList ⟨[97, 98, 99, 46, 120], [(0, 3), (3, 5)]⟩ =
      [[97, 98, 99], [46, 46, 120]].map unescape ∧
    ∀ l ∈ DataBlocks.linesList ⟨[97, 98, 99, 46, 120], [(0, 3), (3, 5)]⟩,
      ¬ ([13, 10] <:+ l) :=
  datablock_lines_exclude_crlf
    [97, 98, 99, 13, 10, 46, 46, 120, 13, 10, 46, 13, 10]
    ⟨[97, 98, 99, 46, 120], [(0, 3), (3, 5)]⟩
    [[97, 98, 99], [46, 46, 120]] (by decide) (by decide)

/-- C2 counterexample: the stream "\r\n\r\n.\r\n" holds two empty
content lines before the terminator; it parses successfully, the
boundary count matches the two content lines, but the recorded boundary
pairs (0,0), (0,0) are not strictly increasing. -/
theorem datablock_boundaries_not_strictly_increasing :
    parseDataBlocks [13, 10, 13, 10, 46, 13, 10] =
      some ⟨[], [(0, 0), (0, 0)]⟩ ∧
    collectContent [13, 10, 13, 10, 46, 13, 10] = some [[], []] ∧
    ¬ List.Pairwise pairLt
      (DataBlocks.line_boundaries ⟨[], [(0, 0), (0, 0)]⟩) := by
  refine ⟨by decide, by decide, ?_⟩
  intro h
  have := (List.pairwise_cons.mp h).1 (0, 0) (List.mem_singleton.mpr rfl)
  rcases this with h1 | h1
  · exact absurd h1 (Nat.lt_irrefl 0)
  · exact absurd h1.2 (Nat.lt_irrefl 0)

/-- C2 (amended): for every successfully parsed multi-line data block,
the number of recorded line boundaries equals the number of content
lines sent before the terminator (the terminator itself is never
stored); the boundaries lie within payload bounds and are
non-overlapping and non-decreasing — strictly increasing whenever every
stored line is non-empty, but a pair can repeat when a content line is
empty; and `is_empty` holds iff there are zero boundaries, equivalently
iff `lines_len` is zero. -/
theorem datablock_boundary_invariants (s : List Nat) (db : DataBlocks)
    (ls : List (List Nat))
    (hp : parseDataBlocks s = some db) (hc : collectContent s = some ls) :
    DataBlocks.lines_len db = ls.length ∧
    (∀ q ∈ db.line_boundaries, q.1 ≤ q.2 ∧ q.2 ≤ DataBlocks.payload_len db) ∧
    List.Pairwise (fun a b => a.2 ≤ b.1) db.line_boundaries ∧
    ((∀ l ∈ ls, unescape l ≠ []) → List.Pairwise pairLt db.line_boundaries) ∧
    (DataBlocks.is_empty db = true ↔ db.line_boundaries = []) ∧
    (DataBlocks.is_empty db = true ↔ DataBlocks.lines_len db = 0) := by
  rw [parseDataBlocks] at hp
  rw [collectContent] at hc
  obtain ⟨ls', hc', hpay, hbound⟩ := parseAux_spec s.length s [] [] db hp
  rw [hc] at hc'
  have hls : ls' = ls := Option.some.inj hc'.symm
  subst hls
  simp only [List.nil_append] at hpay
  simp only [List.nil_append, List.length_nil] at hbound
  refine ⟨?_, ?_, ?_, ?_, ?_, ?_⟩
  · rw [DataBlocks.lines_len, hbound, boundaryList_length, List.length_map]
  · intro q hq
    rw [hbound] at hq
    have := boundaryList_mem_bounds 0 (ls'.map unescape) q hq
    refine ⟨this.2.1, ?_⟩
    rw [DataBlocks.payload_len, hpay]
    simpa using this.2.2
  · rw [hbound]
    exact boundaryList_pairwise 0 (ls'.map unescape)
  · intro hne
    rw [hbound]
    refine boundaryList_pairwise_lt 0 (ls'.map unescape) ?_
    intro u hu
    obtain ⟨l0, hl0, rfl⟩ := List.mem_map.mp hu
    exact hne l0 hl0
  · rw [DataBlocks.is_empty]
    exact List.isEmpty_iff
  · rw [DataBlocks.is_empty, DataBlocks.lines_len]
    rw [List.isEmpty_iff, List.length_eq_zero]

/-- Witness for the amended C2 at the concrete stream "ab\r\n.\r\n". -/
theorem datablock_boundary_invariants_witness :
    DataBlocks.lines_len ⟨[97, 98], [(0, 2)]⟩ = [[97, 98]].length ∧
    (∀ q ∈ DataBlocks.line_boundaries ⟨[97, 98], [(0, 2)]⟩,
      q.1 ≤ q.2 ∧ q.2 ≤ DataBlocks.payload_len ⟨[97, 98], [(0, 2)]⟩) ∧
    List.Pairwise (fun a b => a.2 ≤ b.1)
      (DataBlocks.line_boundaries ⟨[97, 98], [(0, 2)]⟩) ∧
    ((∀ l ∈ [[97, 98]], unescape l ≠ []) →
      List.Pairwise pairLt (DataBlocks.line_boundaries ⟨[97, 98], [(0, 2)]⟩)) ∧
    (DataBlocks.is_empty ⟨[97, 98], [(0, 2)]⟩ = true ↔
      DataBlocks.line_boundaries ⟨[97, 98], [(0, 2)]⟩ = []) ∧
    (DataBlocks.is_empty ⟨[97, 98], [(0, 2)]⟩ = true ↔
      DataBlocks.lines_len ⟨[97, 98], [(0, 2)]⟩ = 0) :=
  datablock_boundary_invariants [97, 98, 13, 10, 46, 13, 10]
    ⟨[97, 98], [(0, 2)]⟩ [[97, 98]] (by decide) (by decide)

/-! ## Claims about the session exchanges -/

/-- C3: a GROUP response classified "group selected" makes `set_group`
return Ok with the `Group` parsed from the response's first line — whose
four tokens after the code are the article number count, the low and
high water marks, and the group name — and replaces the session's
current group with it. -/
theorem set_group_success (st : ClientState) (name : List Nat)
    (resp : RawResponse) (g : Group)
    (hcode : resp.code = ResponseCode.known Kind.groupSelected)
    (hparse : Group.tryFrom resp = Except.ok g)
    (hname : g.name = name) :
    set_group st name resp = (Except.ok g, ⟨st.capabilities, some g⟩) ∧
    (set_group st name resp).2.group = some ⟨name, g.number, g.low, g.high⟩ ∧
    (∀ (r : RawResponse) (num low high nm : List Nat) (a b c : Nat),
      splitOnSpace (stripCRLF (RawResponse.first_line_without_code r)) =
        [num, low, high, nm] →
      parseDigits num = some a → parseDigits low = some b →
      parseDigits high = some c →
      Group.tryFrom r = Except.ok ⟨nm, a, b, c⟩) := by
  have hmain : set_group st name resp = (Except.ok g, ⟨st.capabilities, some g⟩) := by
    simp [set_group, hcode, hparse]
  refine ⟨hmain, ?_, ?_⟩
  · rw [hmain, ← hname]
  · intro r num low high nm a b c hsplit ha hb hc
    simp [Group.tryFrom, hsplit, ha, hb, hc]

/-- Witness for C3: GROUP answered "211 3 1 4 alt.test\r\n" selects
alt.test with counts 3/1/4 and updates the session group. -/
theorem set_group_success_witness :
    set_group ⟨⟨[]⟩, none⟩ [97, 108, 116, 46, 116, 101, 115, 116]
        ⟨ResponseCode.known Kind.groupSelected,
         [50, 49, 49, 32, 51, 32, 49, 32, 52, 32,
          97, 108, 116, 46, 116, 101, 115, 116, 13, 10], none⟩ =
      (Except.ok ⟨[97, 108, 116, 46, 116, 101, 115, 116], 3, 1, 4⟩,
       ⟨⟨[]⟩, some ⟨[97, 108, 116, 46, 116, 101, 115, 116], 3, 1, 4⟩⟩) ∧
    (set_group ⟨⟨[]⟩, none⟩ [97, 108, 116, 46, 116, 101, 115, 116]
        ⟨ResponseCode.known Kind.groupSelected,
         [50, 49, 49, 32, 51, 32, 49, 32, 52, 32,
          97, 108, 116, 46, 116, 101, 115, 116, 13, 10], none⟩).2.group =
      some ⟨[97, 108, 116, 46, 116, 101, 115, 116], 3, 1, 4⟩ ∧
    (∀ (r : RawResponse) (num low high nm : List Nat) (a b c : Nat),
      splitOnSpace (stripCRLF (RawResponse.first_line_without_code r)) =
        [num, low, high, nm] →
      parseDigits num = some a → parseDigits low = some b →
      parseDigits high = some c →
      Group.tryFrom r = Except.ok ⟨nm, a, b, c⟩) :=
  set_group_success ⟨⟨[]⟩, none⟩ [97, 108, 116, 46, 116, 101, 115, 116]
    ⟨ResponseCode.known Kind.groupSelected,
     [50, 49, 49, 32, 51, 32, 49, 32, 52, 32,
      97, 108, 116, 46, 116, 101, 115, 116, 13, 10], none⟩
    ⟨[97, 108, 116, 46, 116, 101, 115, 116], 3, 1, 4⟩
    (by decide) (by rfl) (by decide)

/-- C4: a GROUP response classified "no such newsgroup" makes
`set_group` return the distinguished bad-response (not-found) error,
which is distinct from every generic Failure value, and leaves the
session state unchanged; any other unexpected code yields the generic
Failure instead. -/
theorem set_group_no_such_newsgroup (st : ClientState) (name : List Nat)
    (resp : RawResponse)
    (h : resp.code = ResponseCode.known Kind.noSuchNewsgroup) :
    set_group st name resp = (Except.error (Error.badResponse resp), st) ∧
    (∀ c m r, Error.badResponse resp ≠ Error.failure c m r) ∧
    (∀ r' : RawResponse,
      r'.code ≠ ResponseCode.known Kind.groupSelected →
      r'.code ≠ ResponseCode.known Kind.noSuchNewsgroup →
      set_group st name r' =
        (Except.error (Error.failure r'.code
          (some r'.first_line_to_utf8_lossy) r'), st)) := by
  refine ⟨?_, ?_, ?_⟩
  · simp [set_group, h]
  · intro c m r
    simp
  · intro r' h1 h2
    simp [set_group, h1, h2]

/-- Witness for C4: GROUP answered with code 411 on a session holding no
group returns the bad-response error and leaves the state unchanged. -/
theorem set_group_no_such_newsgroup_witness :
    set_group ⟨⟨[]⟩, none⟩ [109]
        ⟨ResponseCode.known Kind.noSuchNewsgroup, [52, 49, 49, 32], none⟩ =
      (Except.error (Error.badResponse
        ⟨ResponseCode.known Kind.noSuchNewsgroup, [52, 49, 49, 32], none⟩),
       ⟨⟨[]⟩, none⟩) ∧
    (∀ c m r, Error.badResponse
        ⟨ResponseCode.known Kind.noSuchNewsgroup, [52, 49, 49, 32], none⟩ ≠
      Error.failure c m r) ∧
    (∀ r' : RawResponse,
      r'.code ≠ ResponseCode.known Kind.groupSelected →
      r'.code ≠ ResponseCode.known Kind.noSuchNewsgroup →
      set_group ⟨⟨[]⟩, none⟩ [109] r' =
        (Except.error (Error.failure r'.code
          (some r'.first_line_to_utf8_lossy) r'), ⟨⟨[]⟩, none⟩)) :=
  set_group_no_such_newsgroup ⟨⟨[]⟩, none⟩ [109]
    ⟨ResponseCode.known Kind.noSuchNewsgroup, [52, 49, 49, 32], none⟩
    (by decide)

/-- C5: the two-step authentication exchange: USER answered 381 ("more
authentication required") followed by PASS answered "authentication
accepted" succeeds; USER answered anything else fails with a Failure
and PASS is never sent (one command consumed, one sent event); PASS
answered anything else fails with a Failure, leaving the exchange
unauthenticated. -/
theorem authenticate_exchange (u p : List Nat) (r1 r2 : RawResponse)
    (rest : List RawResponse) :
    (r1.code = ResponseCode.ofCode 381 →
      r2.code = ResponseCode.known Kind.authenticationAccepted →
      authenticate u p (r1 :: r2 :: rest) =
        (Except.ok (), rest,
         [Event.sent (Command.authinfoUser u),
          Event.sent (Command.authinfoPass p)])) ∧
    (r1.code ≠ ResponseCode.ofCode 381 →
      authenticate u p (r1 :: r2 :: rest) =
        (Except.error (Error.failure r1.code
          (some (strCp "AUTHINFO USER failed")) r1),
         r2 :: rest, [Event.sent (Command.authinfoUser u)])) ∧
    (r1.code = ResponseCode.ofCode 381 →
      r2.code ≠ ResponseCode.known Kind.authenticationAccepted →
      authenticate u p (r1 :: r2 :: rest) =
        (Except.error (Error.failure r2.code
          (some (strCp "AUTHINFO PASS failed")) r2),
         rest,
         [Event.sent (Command.authinfoUser u),
          Event.sent (Command.authinfoPass p)])) := by
  refine ⟨?_, ?_, ?_⟩
  · intro h1 h2
    simp [authenticate, commandStep, h1, h2]
  · intro h1
    simp [authenticate, commandStep, h1]
  · intro h1 h2
    simp [authenticate, commandStep, h1, h2]

/-- Witness for C5: concrete runs of the three authentication outcomes,
with codes 381/281 (success), 502 on USER (failure, PASS unsent, its
scripted response unconsumed), and 502 on PASS (failure). -/
theorem authenticate_exchange_witness :
    authenticate [117] [112]
        (⟨ResponseCode.ofCode 381, [51, 56, 49, 32], none⟩ ::
         ⟨ResponseCode.known Kind.authenticationAccepted, [50, 56, 49, 32], none⟩ :: []) =
      (Except.ok (), [],
       [Event.sent (Command.authinfoUser [117]),
        Event.sent (Command.authinfoPass [112])]) ∧
    authenticate [117] [112]
        (⟨ResponseCode.unknown 502, [53, 48, 50, 32], none⟩ ::
         ⟨ResponseCode.known Kind.authenticationAccepted, [50, 56, 49, 32], none⟩ :: []) =
      (Except.error (Error.failure (ResponseCode.unknown 502)
        (some (strCp "AUTHINFO USER failed"))
        ⟨ResponseCode.unknown 502, [53, 48, 50, 32], none⟩),
       [⟨ResponseCode.known Kind.authenticationAccepted, [50, 56, 49, 32], none⟩],
       [Event.sent (Command.authinfoUser [117])]) ∧
    authenticate [117] [112]
        (⟨ResponseCode.ofCode 381, [51, 56, 49, 32], none⟩ ::
         ⟨ResponseCode.unknown 502, [53, 48, 50, 32], none⟩ :: []) =
      (Except.error (Error.failure (ResponseCode.unknown 502)
        (some (strCp "AUTHINFO PASS failed"))
        ⟨ResponseCode.unknown 502, [53, 48, 50, 32], none⟩),
       [],
       [Event.sent (Command.authinfoUser [117]),
        Event.sent (Command.authinfoPass [112])]) :=
  ⟨(authenticate_exchange [117] [112]
      ⟨ResponseCode.ofCode 381, [51, 56, 49, 32], none⟩
      ⟨ResponseCode.known Kind.authenticationAccepted, [50, 56, 49, 32], none⟩ []).1
      (by decide) (by decide),
   (authenticate_exchange [117] [112]
      ⟨ResponseCode.unknown 502, [53, 48, 50, 32], none⟩
      ⟨ResponseCode.known Kind.authenticationAccepted, [50, 56, 49, 32], none⟩ []).2.1
      (by decide),
   (authenticate_exchange [117] [112]
      ⟨ResponseCode.ofCode 381, [51, 56, 49, 32], none⟩
      ⟨ResponseCode.unknown 502, [53, 48, 50, 32], none⟩ []).2.2
      (by decide) (by decide)⟩

/-- C6: a failed GROUP or CAPABILITIES exchange leaves the session
state exactly as it was (no partial group change, no partial capability
replacement), and capabilities are replaced wholesale exactly on a
fully successful negotiation, which leaves the group untouched. -/
theorem failed_exchange_preserves_state (st : ClientState) (name : List Nat)
    (resp : RawResponse) :
    (∀ e, (set_group st name resp).1 = Except.error e →
        (set_group st name resp).2 = st) ∧
    (∀ e, (update_capabilities st resp).1 = Except.error e →
        (update_capabilities st resp).2 = st) ∧
    (∀ caps, (update_capabilities st resp).1 = Except.ok caps →
        (update_capabilities st resp).2 = ⟨caps, st.group⟩) := by
  refine ⟨?_, ?_, ?_⟩
  · intro e he
    by_cases h1 : resp.code = ResponseCode.known Kind.groupSelected
    · cases hg : Group.tryFrom resp with
      | ok g => simp [set_group, h1, hg] at he
      | error e' => simp [set_group, h1, hg]
    · by_cases h2 : resp.code = ResponseCode.known Kind.noSuchNewsgroup
      · simp [set_group, h1, h2]
      · simp [set_group, h1, h2]
  · intro e he
    by_cases h1 : resp.code = ResponseCode.known Kind.capabilities
    · cases hg : Capabilities.tryFrom resp with
      | ok caps => simp [update_capabilities, h1, hg] at he
      | error e' => simp [update_capabilities, h1, hg]
    · simp [update_capabilities, h1]
  · intro caps hc
    by_cases h1 : resp.code = ResponseCode.known Kind.capabilities
    · cases hg : Capabilities.tryFrom resp with
      | ok caps' =>
        simp [update_capabilities, h1, hg] at hc ⊢
        rw [hc]
      | error e' => simp [update_capabilities, h1, hg] at hc
    · simp [update_capabilities, h1] at hc

/-- Witness for C6 at a "no such newsgroup" GROUP failure on a session
with a non-trivial state. -/
theorem failed_exchange_preserves_state_witness :
    (set_group ⟨⟨[⟨[86], []⟩]⟩, none⟩ [109]
        ⟨ResponseCode.known Kind.noSuchNewsgroup, [52, 49, 49, 32], none⟩).2 =
      ⟨⟨[⟨[86], []⟩]⟩, none⟩ :=
  (failed_exchange_preserves_state ⟨⟨[⟨[86], []⟩]⟩, none⟩ [109]
      ⟨ResponseCode.known Kind.noSuchNewsgroup, [52, 49, 49, 32], none⟩).1
    (Error.badResponse ⟨ResponseCode.known Kind.noSuchNewsgroup, [52, 49, 49, 32], none⟩)
    (by rfl)

/-- C7: `close` succeeds exactly when the QUIT response is classified
"connection closing"; on success the current group is cleared, on any
other code it fails with a Failure and the state is left as it was. -/
theorem close_spec (st : ClientState) (resp : RawResponse) :
    (resp.code = ResponseCode.known Kind.connectionClosing →
      close st resp = (Except.ok (), ⟨st.capabilities, none⟩)) ∧
    (resp.code ≠ ResponseCode.known Kind.connectionClosing →
      close st resp = (Except.error (Error.failure resp.code
        (some (strCp "Failed to close connection")) resp), st)) := by
  constructor
  · intro h
    simp [close, h]
  · intro h
    simp [close, h]

/-- Witness for C7: QUIT answered 205 clears the group; QUIT answered
an unexpected code fails and preserves the state. -/
theorem close_spec_witness :
    close ⟨⟨[]⟩, some ⟨[97], 1, 1, 1⟩⟩
        ⟨ResponseCode.known Kind.connectionClosing, [50, 48, 53, 32], none⟩ =
      (Except.ok (), ⟨⟨[]⟩, none⟩) ∧
    close ⟨⟨[]⟩, some ⟨[97], 1, 1, 1⟩⟩
        ⟨ResponseCode.unknown 500, [53, 48, 48, 32], none⟩ =
      (Except.error (Error.failure (ResponseCode.unknown 500)
        (some (strCp "Failed to close connection"))
        ⟨ResponseCode.unknown 500, [53, 48, 48, 32], none⟩),
       ⟨⟨[]⟩, some ⟨[97], 1, 1, 1⟩⟩) :=
  ⟨(close_spec ⟨⟨[]⟩, some ⟨[97], 1, 1, 1⟩⟩
      ⟨ResponseCode.known Kind.connectionClosing, [50, 48, 53, 32], none⟩).1 (by decide),
   (close_spec ⟨⟨[]⟩, some ⟨[97], 1, 1, 1⟩⟩
      ⟨ResponseCode.unknown 500, [53, 48, 48, 32], none⟩).2 (by decide)⟩

/-! ## Helper lemmas about the connect-sequence event traces -/

/-- The authentication exchange sends AUTHINFO USER, and AUTHINFO PASS
at most afterwards: its trace is one of the two prefixes. -/
theorem authenticate_events (u p : List Nat) (script : List RawResponse) :
    (authenticate u p script).2.2 = [Event.sent (Command.authinfoUser u)] ∨
    (authenticate u p script).2.2 =
      [Event.sent (Command.authinfoUser u), Event.sent (Command.authinfoPass p)] := by
  cases script with
  | nil => left; simp [authenticate, commandStep]
  | cons r1 rest1 =>
    by_cases h1 : r1.code = ResponseCode.ofCode 381
    · cases rest1 with
      | nil => right; simp [authenticate, commandStep, h1]
      | cons r2 rest2 =>
        by_cases h2 : r2.code = ResponseCode.known Kind.authenticationAccepted
        · right; simp [authenticate, commandStep, h1, h2]
        · right; simp [authenticate, commandStep, h1, h2]
    · left; simp [authenticate, commandStep, h1]

/-- The authentication phase emits only authentication events. -/
theorem authPhase_events (cfg : ClientConfig) (script : List RawResponse) :
    ((authPhase cfg script).2.2).all isAuthEvent = true := by
  cases hai : cfg.authinfo with
  | none => simp [authPhase, hai]
  | some up =>
    rcases authenticate_events up.1 up.2 script with h | h <;>
      simp [authPhase, hai, h, isAuthEvent]

/-- The capability negotiation sends exactly one CAPABILITIES command. -/
theorem get_capabilities_events (script : List RawResponse) :
    (get_capabilities script).2.2 = [Event.sent Command.capabilities] := by
  cases script with
  | nil => simp [get_capabilities, commandStep]
  | cons r rest =>
    by_cases h1 : r.code = ResponseCode.known Kind.capabilities
    · cases hg : Capabilities.tryFrom r with
      | ok caps => simp [get_capabilities, commandStep, h1, hg]
      | error e => simp [get_capabilities, commandStep, h1, hg]
    · simp [get_capabilities, commandStep, h1]

/-- Selecting a group sends exactly one GROUP command. -/
theorem select_group_events (name : List Nat) (script : List RawResponse) :
    (select_group name script).2.2 = [Event.sent (Command.group name)] := by
  cases script with
  | nil => simp [select_group, commandStep]
  | cons r rest =>
    by_cases h1 : r.code = ResponseCode.known Kind.groupSelected
    · cases hg : Group.tryFrom r with
      | ok g => simp [select_group, commandStep, h1, hg]
      | error e => simp [select_group, commandStep, h1, hg]
    · by_cases h2 : r.code = ResponseCode.known Kind.noSuchNewsgroup
      · simp [select_group, commandStep, h1, h2]
      · simp [select_group, commandStep, h1, h2]

/-- The initial-group phase emits only group-selection events. -/
theorem groupPhase_events (cfg : ClientConfig) (script : List RawResponse) :
    ((groupPhase cfg script).2.2).all isGroupEvent = true := by
  cases hgn : cfg.groupName with
  | none => simp [groupPhase, hgn]
  | some n =>
    rcases hs : select_group n script with ⟨sres, s1, evs⟩
    have hevs := select_group_events n script
    rw [hs] at hevs
    simp at hevs
    cases sres with
    | ok g => simp [groupPhase, hgn, hs, hevs, isGroupEvent]
    | error e => simp [groupPhase, hgn, hs, hevs, isGroupEvent]

/-- C8: the connect sequence runs its exchanges in a fixed order.
With no credentials configured, no AUTHINFO command is ever sent and no
warning is emitted. With credentials configured and no TLS, the
plaintext warning is emitted before anything is sent, the credentials
are still sent, and the connect outcome is exactly what it would be
with TLS (the warning is not an error). An authentication failure
aborts connect with that error, with nothing sent after the
authentication events. After a successful authentication phase the
trace is the warning events, then the authentication events, then
exactly one CAPABILITIES command, then only group-selection events; a
capability failure aborts before any group event, and when the group
phase runs last its error is the overall connect error while its
success yields the connected state. -/
theorem connect_exchange_order (cfg : ClientConfig) (script : List RawResponse) :
    (cfg.authinfo = none →
      warnEvs cfg = [] ∧
      ((connectModel cfg script).2.all (fun e => !(isAuthEvent e))) = true) ∧
    (∀ up, cfg.authinfo = some up → cfg.tls = false →
      warnEvs cfg = [Event.warnedPlaintext] ∧
      Event.sent (Command.authinfoUser up.1) ∈ (connectModel cfg script).2 ∧
      (connectModel cfg script).1 =
        (connectModel ⟨true, cfg.authinfo, cfg.groupName⟩ script).1) ∧
    (∀ e, (authPhase cfg script).1 = Except.error e →
      connectModel cfg script =
        (Except.error e, warnEvs cfg ++ (authPhase cfg script).2.2)) ∧
    (∀ s1 authEvs, authPhase cfg script = (Except.ok (), s1, authEvs) →
      authEvs.all isAuthEvent = true ∧
      ∃ tailEvs, (connectModel cfg script).2 =
          warnEvs cfg ++ authEvs ++ [Event.sent Command.capabilities] ++ tailEvs ∧
        tailEvs.all isGroupEvent = true ∧
        (∀ e, (get_capabilities s1).1 = Except.error e →
          (connectModel cfg script).1 = Except.error e ∧ tailEvs = []) ∧
        (∀ caps s2 capEvs2, get_capabilities s1 = (Except.ok caps, s2, capEvs2) →
          (∀ e, (groupPhase cfg s2).1 = Except.error e →
            (connectModel cfg script).1 = Except.error e) ∧
          (∀ og s3 grpEvs2, groupPhase cfg s2 = (Except.ok og, s3, grpEvs2) →
            (connectModel cfg script).1 = Except.ok ⟨caps, og⟩))) := by
  refine ⟨?_, ?_, ?_, ?_⟩
  · -- no credentials: no warning, no AUTHINFO events anywhere in the trace
    intro hnone
    have hwarn : warnEvs cfg = [] := by simp [warnEvs, hnone]
    have hap : authPhase cfg script = (Except.ok (), script, []) := by
      simp [authPhase, hnone]
    refine ⟨hwarn, ?_⟩
    rcases hg : get_capabilities script with ⟨gres, s2, capEvs⟩
    have hcev := get_capabilities_events script
    rw [hg] at hcev
    simp at hcev
    cases gres with
    | error e =>
      simp [connectModel, hap, hg, hwarn, hcev, isAuthEvent]
    | ok caps =>
      rcases hgp : groupPhase cfg s2 with ⟨pres, s3, grpEvs⟩
      have hgev := groupPhase_events cfg s2
      rw [hgp] at hgev
      simp at hgev
      cases pres with
      | error e =>
        simp [connectModel, hap, hg, hgp, hwarn, hcev, isAuthEvent,
          List.all_eq_true]
        intro ev hev
        have hgi := hgev ev hev
        cases ev with
        | warnedPlaintext => rfl
        | sent c =>
          cases c with
          | group n => rfl
          | capabilities => rfl
          | authinfoUser x => simp [isGroupEvent] at hgi
          | authinfoPass x => simp [isGroupEvent] at hgi
          | quit => rfl
      | ok og =>
        simp [connectModel, hap, hg, hgp, hwarn, hcev, isAuthEvent,
          List.all_eq_true]
        intro ev hev
        have hgi := hgev ev hev
        cases ev with
        | warnedPlaintext => rfl
        | sent c =>
          cases c with
          | group n => rfl
          | capabilities => rfl
          | authinfoUser x => simp [isGroupEvent] at hgi
          | authinfoPass x => simp [isGroupEvent] at hgi
          | quit => rfl
  · -- credentials without TLS: warning emitted, credentials still sent,
    -- outcome identical to the TLS configuration
    intro up hsome htls
    have hwarn : warnEvs cfg = [Event.warnedPlaintext] := by
      simp [warnEvs, hsome, htls]
    rcases hap : authPhase cfg script with ⟨ares, s1, aevs⟩
    have hap' : authPhase ⟨true, cfg.authinfo, cfg.groupName⟩ script =
        (ares, s1, aevs) := hap
    have haevs := authenticate_events up.1 up.2 script
    have hapu : authPhase cfg script = authenticate up.1 up.2 script := by
      simp [authPhase, hsome]
    rw [hapu] at hap
    rw [hap] at haevs
    simp at haevs
    have hmem : Event.sent (Command.authinfoUser up.1) ∈ aevs := by
      rcases haevs with h | h <;> simp [h]
    have hapc : authPhase cfg script = (ares, s1, aevs) := by rw [hapu, hap]
    refine ⟨hwarn, ?_, ?_⟩
    · cases ares with
      | error e => simp [connectModel, hapc, hmem]
      | ok un =>
        rcases hg : get_capabilities s1 with ⟨gres, s2, capEvs⟩
        cases gres with
        | error e => simp [connectModel, hapc, hg, hmem]
        | ok caps =>
          rcases hgp : groupPhase cfg s2 with ⟨pres, s3, grpEvs⟩
          cases pres with
          | error e => simp [connectModel, hapc, hg, hgp, hmem]
          | ok og => simp [connectModel, hapc, hg, hgp, hmem]
    · cases ares with
      | error e => simp [connectModel, hapc, hap']
      | ok un =>
        rcases hg : get_capabilities s1 with ⟨gres, s2, capEvs⟩
        cases gres with
        | error e => simp [connectModel, hapc, hap', hg]
        | ok caps =>
          rcases hgp : groupPhase cfg s2 with ⟨pres, s3, grpEvs⟩
          have hgp' : groupPhase ⟨true, cfg.authinfo, cfg.groupName⟩ s2 =
              (pres, s3, grpEvs) := hgp
          cases pres with
          | error e => simp [connectModel, hapc, hap', hg, hgp, hgp']
          | ok og => simp [connectModel, hapc, hap', hg, hgp, hgp']
  · -- authentication failure aborts connect
    intro e he
    rcases hap : authPhase cfg script with ⟨ares, s1, aevs⟩
    rw [hap] at he
    simp at he
    subst he
    simp [connectModel, hap]
  · -- after successful authentication: capabilities, then only the group phase
    intro s1 authEvs hap
    have hall := authPhase_events cfg script
    rw [hap] at hall
    simp at hall
    refine ⟨by simpa [List.all_eq_true] using hall, ?_⟩
    rcases hg : get_capabilities s1 with ⟨gres, s2, capEvs⟩
    have hcev := get_capabilities_events s1
    rw [hg] at hcev
    simp at hcev
    cases gres with
    | error e =>
      refine ⟨[], ?_, by simp, ?_, ?_⟩
      · simp [connectModel, hap, hg, hcev]
      · intro e' he'
        simp at he'
        subst he'
        simp [connectModel, hap, hg]
      · intro caps s2' capEvs2 hok
        simp at hok
    | ok caps =>
      rcases hgp : groupPhase cfg s2 with ⟨pres, s3, grpEvs⟩
      have hgev := groupPhase_events cfg s2
      rw [hgp] at hgev
      simp at hgev
      refine ⟨grpEvs, ?_, by simpa [List.all_eq_true] using hgev, ?_, ?_⟩
      · cases pres with
        | error e => simp [connectModel, hap, hg, hgp, hcev]
        | ok og => simp [connectModel, hap, hg, hgp, hcev]
      · intro e' he'
        simp at he'
      · intro caps' s2' capEvs2 hok
        simp at hok
        obtain ⟨hcaps, hs2, hcev2⟩ := hok
        subst hcaps
        subst hs2
        constructor
        · intro e' he'
          rw [hgp] at he'
          cases pres with
          | error e0 =>
            simp at he'
            subst he'
            simp [connectModel, hap, hg, hgp]
          | ok og => simp at he'
        · intro og s3' ge' hok2
          rw [hgp] at hok2
          cases pres with
          | error e0 => simp at hok2
          | ok og0 =>
            simp at hok2
            obtain ⟨hog, hs3, hge⟩ := hok2
            subst hog
            simp [connectModel, hap, hg, hgp]

/-- Witness for C8: concrete instances of each part of the ordering
theorem — a credential-free connect sends no AUTHINFO; a plaintext
connect warns, still sends the credentials, and has the same outcome as
its TLS variant; a failed authentication aborts with nothing after the
authentication events; a successful run proceeds through CAPABILITIES
to the group phase. -/
theorem connect_exchange_order_witness :
    (warnEvs cfgNoAuth = [] ∧
      ((connectModel cfgNoAuth scriptDemo).2.all (fun e => !(isAuthEvent e))) = true) ∧
    (warnEvs cfgDemo = [Event.warnedPlaintext] ∧
      Event.sent (Command.authinfoUser [117]) ∈ (connectModel cfgDemo scriptDemo).2 ∧
      (connectModel cfgDemo scriptDemo).1 =
        (connectModel ⟨true, cfgDemo.authinfo, cfgDemo.groupName⟩ scriptDemo).1) ∧
    (connectModel cfgDemo [respBadDemo] =
      (Except.error (Error.failure (ResponseCode.unknown 481)
        (some (strCp "AUTHINFO USER failed")) respBadDemo),
       warnEvs cfgDemo ++ (authPhase cfgDemo [respBadDemo]).2.2)) ∧
    ([Event.sent (Command.authinfoUser [117]),
      Event.sent (Command.authinfoPass [112])].all isAuthEvent = true ∧
     ∃ tailEvs, (connectModel cfgDemo scriptDemo).2 =
        warnEvs cfgDemo ++
          [Event.sent (Command.authinfoUser [117]),
           Event.sent (Command.authinfoPass [112])] ++
          [Event.sent Command.capabilities] ++ tailEvs ∧
      tailEvs.all isGroupEvent = true ∧
      (∀ e, (get_capabilities [respCapsDemo, respGroupDemo]).1 = Except.error e →
        (connectModel cfgDemo scriptDemo).1 = Except.error e ∧ tailEvs = []) ∧
      (∀ caps s2 capEvs2,
        get_capabilities [respCapsDemo, respGroupDemo] = (Except.ok caps, s2, capEvs2) →
        (∀ e, (groupPhase cfgDemo s2).1 = Except.error e →
          (connectModel cfgDemo scriptDemo).1 = Except.error e) ∧
        (∀ og s3 grpEvs2, groupPhase cfgDemo s2 = (Except.ok og, s3, grpEvs2) →
          (connectModel cfgDemo scriptDemo).1 = Except.ok ⟨caps, og⟩))) :=
  ⟨(connect_exchange_order cfgNoAuth scriptDemo).1 (by rfl),
   (connect_exchange_order cfgDemo scriptDemo).2.1 ([117], [112]) (by rfl) (by rfl),
   (connect_exchange_order cfgDemo [respBadDemo]).2.2.1
     (Error.failure (ResponseCode.unknown 481)
       (some (strCp "AUTHINFO USER failed")) respBadDemo) (by rfl),
   (connect_exchange_order cfgDemo scriptDemo).2.2.2
     [respCapsDemo, respGroupDemo]
     [Event.sent (Command.authinfoUser [117]), Event.sent (Command.authinfoPass [112])]
     (by rfl)⟩

/-- On well-formed input the lossy decoder agrees with the strict
decoder: no replacement and no other processing happens. -/
theorem lossyGo_of_decode : ∀ (fuel : Nat) (l u : List Nat),
    decodeUtf8Go fuel l = some u → lossyGo fuel l = u := by
  intro fuel
  induction fuel with
  | zero =>
    intro l u h
    cases l with
    | nil =>
      simp [decodeUtf8Go] at h
      simp [lossyGo, ← h]
    | cons b bs => simp [decodeUtf8Go] at h
  | succ n ih =>
    intro l u h
    cases l with
    | nil =>
      simp [decodeUtf8Go] at h
      simp [lossyGo, ← h]
    | cons b bs =>
      rw [decodeUtf8Go] at h
      cases hd : decodeUtf8Char (b :: bs) with
      | none => rw [hd] at h; simp at h
      | some p =>
        obtain ⟨cp, rest⟩ := p
        rw [hd] at h
        simp at h
        obtain ⟨u', hu', hcons⟩ := h
        rw [lossyGo, hd]
        show cp :: lossyGo n rest = u
        rw [ih rest u' hu', hcons]

/-- C10: the strict accessor `first_line_as_utf8` succeeds exactly when
the first line is valid UTF-8, but on success it returns the decoded
text with leading and trailing white space removed — it is not the
identity decoding of the first line (shown concrete on "205 bye ") —
whereas `first_line_to_utf8_lossy` returns the untrimmed decoding on
valid input and `DataBlocks::payload_as_utf8` is exactly the strict
decoding of the payload with no trimming. -/
theorem first_line_utf8_accessors (resp : RawResponse) (db : DataBlocks) :
    ((RawResponse.first_line_as_utf8 resp).isSome ↔
      (decodeUtf8 resp.first_line).isSome) ∧
    (∀ u, decodeUtf8 resp.first_line = some u →
      RawResponse.first_line_as_utf8 resp = some (trimCp u) ∧
      RawResponse.first_line_to_utf8_lossy resp = u) ∧
    DataBlocks.payload_as_utf8 db = decodeUtf8 db.payload ∧
    RawResponse.first_line_as_utf8
        ⟨ResponseCode.known Kind.connectionClosing,
         [50, 48, 53, 32, 98, 121, 101, 32], none⟩ ≠
      decodeUtf8 [50, 48, 53, 32, 98, 121, 101, 32] := by
  refine ⟨?_, ?_, rfl, ?_⟩
  · simp [RawResponse.first_line_as_utf8]
  · intro u hu
    constructor
    · rw [RawResponse.first_line_as_utf8, hu]
      rfl
    · rw [RawResponse.first_line_to_utf8_lossy, lossyDecode]
      exact lossyGo_of_decode _ _ _ hu
  · decide

/-- Witness for C10 at the first line "205 bye ": the strict accessor
returns the trimmed text while the lossy accessor returns the untrimmed
decoding. -/
theorem first_line_utf8_accessors_witness :
    RawResponse.first_line_as_utf8
        ⟨ResponseCode.known Kind.connectionClosing,
         [50, 48, 53, 32, 98, 121, 101, 32], none⟩ =
      some (trimCp [50, 48, 53, 32, 98, 121, 101, 32]) ∧
    RawResponse.first_line_to_utf8_lossy
        ⟨ResponseCode.known Kind.connectionClosing,
         [50, 48, 53, 32, 98, 121, 101, 32], none⟩ =
      [50, 48, 53, 32, 98, 121, 101, 32] :=
  (first_line_utf8_accessors
      ⟨ResponseCode.known Kind.connectionClosing,
       [50, 48, 53, 32, 98, 121, 101, 32], none⟩
      ⟨[], []⟩).2.1
    [50, 48, 53, 32, 98, 121, 101, 32] (by rfl)

end Brokaw
